import Mathlib

/-!
Shallow embedding of the MSM shared-memory (SMEM) allocator from
`arch/arm/mach-msm/smem.c`.

Machine integers (`phys_addr_t`, `uintptr_t`, `unsigned`) are 32-bit on this
ARM target; they are modelled as `Nat` with an explicit `% W32` wherever the C
arithmetic can wrap.  The global region table `smem_areas` (NULL pointer or an
array of `num_smem_areas` descriptors) is modelled as `Option (List smem_area)`,
and the remaining translation globals are bundled in `SmemContext`.  Remote
spinlocks and memory barriers are no-ops in this sequential model.
-/

def W32 : Nat := 4294967296

/-- `OVERFLOW_ADD_UNSIGNED(type, a, b)` from smem.c line 35: `((type)~0 - a) < b`,
computed in a 32-bit unsigned type, so `(type)~0 = W32 - 1`. -/
def OVERFLOW_ADD_UNSIGNED (a b : Nat) : Bool := decide (W32 - 1 - a < b)

/-- One entry of the `smem_areas` region table: `{phys_addr, size, virt_addr}`
(fields as read by smem.c; the struct itself lives in `smem_private.h`). -/
structure smem_area where
  phys_addr : Nat
  size : Nat
  virt_addr : Nat
deriving DecidableEq, Repr

/-- The translation globals of smem.c: `msm_shared_ram_phys`,
`MSM_SHARED_RAM_SIZE`, `MSM_SHARED_RAM_BASE`, and the region table
(`smem_areas` = `none` models the NULL pointer of early boot). -/
structure SmemContext where
  shared_ram_phys : Nat
  shared_ram_size : Nat
  shared_ram_base : Nat
  areas : Option (List smem_area)
deriving DecidableEq, Repr

/-- The scan loop of `smem_phys_to_virt` (smem.c lines 127-142): skip a region
when `base < phys_addr || base + offset >= phys_addr + size` (the right-hand
sum computed in 32-bit `phys_addr_t`); on the first non-skipped region, fail on
virtual-address overflow, else return `virt_addr + offset`. -/
def phys_to_virt_scan (base offset : Nat) : List smem_area → Option Nat
  | [] => none
  | a :: rest =>
    if base < a.phys_addr ∨ (a.phys_addr + a.size) % W32 ≤ base + offset then
      phys_to_virt_scan base offset rest
    else if OVERFLOW_ADD_UNSIGNED a.virt_addr offset then none
    else some (a.virt_addr + offset)

/-- `smem_phys_to_virt` (smem.c lines 90-145): overflow-check `base + offset`,
then either the early-boot fallback against the main shared region (when
`smem_areas` is NULL) or the region scan. -/
def smem_phys_to_virt (ctx : SmemContext) (base offset : Nat) : Option Nat :=
  if OVERFLOW_ADD_UNSIGNED base offset then none
  else
    match ctx.areas with
    | none =>
      if ctx.shared_ram_phys ≤ base ∧
          base + offset < (ctx.shared_ram_phys + ctx.shared_ram_size) % W32 then
        if OVERFLOW_ADD_UNSIGNED ctx.shared_ram_base offset then none
        else some (ctx.shared_ram_base + offset)
      else none
    | some l => phys_to_virt_scan base offset l

/-- The scan loop of `smem_virt_to_phys` (smem.c lines 165-174): first region
whose virtual span `[virt_addr, virt_addr + size)` contains the address wins;
the result `(addr - virt_addr) + phys_addr` is 32-bit `phys_addr_t` arithmetic. -/
def virt_to_phys_scan (addr : Nat) : List smem_area → Nat
  | [] => 0
  | a :: rest =>
    if a.virt_addr ≤ addr ∧ addr < (a.virt_addr + a.size) % W32 then
      (addr - a.virt_addr + a.phys_addr) % W32
    else virt_to_phys_scan addr rest

/-- `smem_virt_to_phys` (smem.c lines 156-177): 0 when `smem_areas` is NULL or
no region's virtual span contains the address. -/
def smem_virt_to_phys (ctx : SmemContext) (addr : Nat) : Nat :=
  match ctx.areas with
  | none => 0
  | some l => virt_to_phys_scan addr l

/-- One TOC slot, `struct smem_heap_entry` (fields as read/written by smem.c:
`allocated`, `offset`, `size`, `reserved`; 32-bit unsigned each). -/
structure smem_heap_entry where
  allocated : Nat
  offset : Nat
  size : Nat
  reserved : Nat
deriving DecidableEq, Repr

/-- The heap header, `struct smem_heap_info` (fields as read/written by smem.c:
`initialized`, `free_offset`, `heap_remaining`; 32-bit unsigned each). -/
structure smem_heap_info where
  initialized : Nat
  free_offset : Nat
  heap_remaining : Nat
deriving DecidableEq, Repr

/-- The shared root structure at `MSM_SHARED_RAM_BASE`: heap header plus the
TOC array (`heap_toc`, `SMEM_NUM_ITEMS` entries, modelled as a list). -/
structure smem_shared where
  heap_info : smem_heap_info
  heap_toc : List smem_heap_entry
deriving DecidableEq, Repr

/-- A TOC slot that has never been written: all fields zero. -/
def emptyEntry : smem_heap_entry := ⟨0, 0, 0, 0⟩

/-- The array read `toc[id]` (the TOC has `SMEM_NUM_ITEMS` entries; reads are
always guarded by `id < SMEM_NUM_ITEMS` in smem.c, so the default is never
reached when the list models the full array). -/
def tocGet (l : List smem_heap_entry) (i : Nat) : smem_heap_entry :=
  l.getD i emptyEntry

/-- `ALIGN(x, 8)` from `linux/kernel.h` as used by smem.c:
`((x + 7) & ~7)` in 32-bit unsigned arithmetic. -/
def ALIGN8 (x : Nat) : Nat := (x + 7) % W32 / 8 * 8

/-- `smem_alloc2` (smem.c lines 212-255) as a state transformer on the shared
root structure.  `num_items` is `SMEM_NUM_ITEMS`, `fixed_last` is
`SMEM_FIXED_ITEM_LAST` (compile-time constants from headers outside this tree,
kept as parameters).  Returns the C return value (`none` for NULL, else the
address `MSM_SHARED_RAM_BASE + toc[id].offset`) together with the new state. -/
def smem_alloc2 (num_items fixed_last : Nat) (ctx : SmemContext)
    (s : smem_shared) (id size_in0 : Nat) : Option Nat × smem_shared :=
  if s.heap_info.initialized = 0 then (none, s)
  else if num_items ≤ id then (none, s)
  else
    let size_in := ALIGN8 size_in0
    let e := tocGet s.heap_toc id
    if e.allocated ≠ 0 then
      if size_in ≠ e.size then (none, s)
      else (some ((ctx.shared_ram_base + e.offset) % W32), s)
    else if fixed_last < id then
      if size_in ≤ s.heap_info.heap_remaining then
        let e' : smem_heap_entry := ⟨1, s.heap_info.free_offset, size_in, e.reserved⟩
        let s' : smem_shared :=
          ⟨⟨s.heap_info.initialized,
            (s.heap_info.free_offset + size_in) % W32,
            s.heap_info.heap_remaining - size_in⟩,
            s.heap_toc.set id e'⟩
        (some ((ctx.shared_ram_base + s.heap_info.free_offset) % W32), s')
      else (none, s)
    else (none, s)

/-- `smem_get_entry` (smem.c lines 258-289).  `base_addr_mask` is
`BASE_ADDR_MASK` (from a header outside this tree, kept as a parameter).
`size0` is the value behind the caller's `*size` pointer on entry; the result
pairs the returned pointer with the value behind `*size` on exit (untouched
when `id` is out of range). -/
def smem_get_entry (num_items base_addr_mask : Nat) (ctx : SmemContext)
    (s : smem_shared) (id size0 : Nat) : Option Nat × Nat :=
  if num_items ≤ id then (none, size0)
  else
    let e := tocGet s.heap_toc id
    if e.allocated ≠ 0 then
      let pb := Nat.land e.reserved base_addr_mask
      let phys_base := if pb = 0 then ctx.shared_ram_phys else pb
      (smem_phys_to_virt ctx phys_base e.offset, e.size)
    else (none, 0)

/-- `smem_find` (smem.c lines 189-206): look the entry up, then require the
8-byte-aligned requested size to equal the stored size.  The local `size` is
uninitialized in C; it is only read after a non-NULL lookup, which always
writes it, so passing 0 is equivalent. -/
def smem_find (num_items base_addr_mask : Nat) (ctx : SmemContext)
    (s : smem_shared) (id size_in0 : Nat) : Option Nat :=
  let r := smem_get_entry num_items base_addr_mask ctx s id 0
  match r.1 with
  | none => none
  | some ptr => if ALIGN8 size_in0 ≠ r.2 then none else some ptr

/-- `smem_alloc` (smem.c lines 183-187): a plain wrapper around `smem_find`. -/
def smem_alloc (num_items base_addr_mask : Nat) (ctx : SmemContext)
    (s : smem_shared) (id size : Nat) : Option Nat :=
  smem_find num_items base_addr_mask ctx s id size

/-! Concrete contexts and states used by the example and witness theorems. -/

/-- The two-region registry of the spec's translation example:
`R1 = [0x1000, 0x1100)` mapped at virtual `0x9000`,
`R2 = [0x2000, 0x2200)` mapped at virtual `0xA000`. -/
def ctxR12 : SmemContext :=
  ⟨0, 0, 0, some [⟨0x1000, 0x100, 0x9000⟩, ⟨0x2000, 0x200, 0xA000⟩]⟩

/-- A small early-boot-style context: shared RAM at physical 0x100, virtual
base 0x8000, no region table. -/
def ctx0 : SmemContext := ⟨0x100, 0x1000, 0x8000, none⟩

/-- A fresh initialized heap: 8 TOC slots, nothing allocated, 64 bytes free. -/
def s0 : smem_shared := ⟨⟨1, 0, 64⟩, List.replicate 8 emptyEntry⟩

/-- A nearly full heap: only 4 bytes remaining. -/
def sOOM : smem_shared := ⟨⟨1, 0, 4⟩, List.replicate 8 emptyEntry⟩

/-- The state after allocating item 3 with (aligned) size 8 in `s0`. -/
def s1c : smem_shared :=
  ⟨⟨1, 8, 56⟩, (List.replicate 8 emptyEntry).set 3 ⟨1, 0, 8, 0⟩⟩

/-- Reading back an updated list cell: `(l.set i a).getD i d = a` when `i` is
in range. -/
theorem getD_set_self {α : Type} (l : List α) (i : Nat) (a d : α)
    (h : i < l.length) : (l.set i a).getD i d = a := by
  induction l generalizing i with
  | nil => simp at h
  | cons x xs ih =>
    cases i with
    | zero => rfl
    | succ n => exact ih n (Nat.lt_of_succ_lt_succ (by simpa using h))

/-- C1, counterexample: with the two example regions registered,
`smem_phys_to_virt 0x1050 0x10` does not return `0x9060` — the code returns
the region's virtual base plus the offset argument and never adds the
difference `base - phys_addr`. -/
theorem smem_phys_to_virt_ignores_base_delta :
    smem_phys_to_virt ctxR12 0x1050 0x10 ≠ some 0x9060 := by decide

/-- C1, amended: with regions `R1 = [0x1000,0x1100) → 0x9000` and
`R2 = [0x2000,0x2200) → 0xA000`, `smem_phys_to_virt 0x1050 0x10` returns
`0x9010` (virtual base of the containing region plus the offset argument;
the base's displacement inside the region is discarded), and
`smem_phys_to_virt 0x1050 0x200` (which leaves `R1`) returns NULL. -/
theorem smem_phys_to_virt_two_region_example :
    smem_phys_to_virt ctxR12 0x1050 0x10 = some 0x9010 ∧
    smem_phys_to_virt ctxR12 0x1050 0x200 = none := by decide

/-- C10: `smem_alloc` returns exactly what `smem_find` returns on every input;
both are pure readers of the shared state (neither returns a modified state),
so `smem_alloc` never allocates. -/
theorem smem_alloc_eq_smem_find (num_items base_addr_mask : Nat)
    (ctx : SmemContext) (s : smem_shared) (id size : Nat) :
    smem_alloc num_items base_addr_mask ctx s id size =
      smem_find num_items base_addr_mask ctx s id size := rfl

/-- C7: for an in-range identifier whose TOC slot was never allocated,
`smem_get_entry` returns NULL with `*size = 0`, and `smem_find` returns NULL
for every requested size. -/
theorem smem_lookup_never_allocated (num_items base_addr_mask : Nat)
    (ctx : SmemContext) (s : smem_shared) (id size0 size_in : Nat)
    (hid : id < num_items)
    (halloc : (tocGet s.heap_toc id).allocated = 0) :
    smem_get_entry num_items base_addr_mask ctx s id size0 = (none, 0) ∧
    smem_find num_items base_addr_mask ctx s id size_in = none := by
  have h1 : ¬ num_items ≤ id := Nat.not_le.mpr hid
  refine ⟨?_, ?_⟩
  · simp [smem_get_entry, h1, halloc]
  · simp [smem_find, smem_get_entry, h1, halloc]

/-- C7 witness at a concrete never-allocated slot. -/
theorem smem_lookup_never_allocated_witness :
    smem_get_entry 8 0xFFFF0000 ctx0 s0 3 7 = (none, 0) ∧
    smem_find 8 0xFFFF0000 ctx0 s0 3 5 = none :=
  smem_lookup_never_allocated 8 0xFFFF0000 ctx0 s0 3 7 5 (by decide) (by decide)

/-- C8: `smem_alloc2` refuses to allocate an unallocated identifier in the
fixed range (`id ≤ SMEM_FIXED_ITEM_LAST`): it returns NULL and the shared
state — TOC entry and heap header — is returned unchanged, for every size. -/
theorem smem_alloc2_fixed_range_refused (num_items fixed_last : Nat)
    (ctx : SmemContext) (s : smem_shared) (id size : Nat)
    (halloc : (tocGet s.heap_toc id).allocated = 0)
    (hfix : id ≤ fixed_last) :
    smem_alloc2 num_items fixed_last ctx s id size = (none, s) := by
  have h2 : ¬ fixed_last < id := Nat.not_lt.mpr hfix
  simp only [smem_alloc2]
  split_ifs with hA hB hC hD <;> simp_all

/-- C8 witness at a concrete fixed-range identifier. -/
theorem smem_alloc2_fixed_range_refused_witness :
    smem_alloc2 8 2 ctx0 s0 1 5 = (none, s0) :=
  smem_alloc2_fixed_range_refused 8 2 ctx0 s0 1 5 (by decide) (by decide)

/-- C3: allocating an unallocated dynamic-range identifier when the aligned
requested size exceeds `heap_remaining` fails with NULL and returns the shared
state — TOC entry and heap header — exactly unchanged. -/
theorem smem_alloc2_oom_leaves_state (num_items fixed_last : Nat)
    (ctx : SmemContext) (s : smem_shared) (id size : Nat)
    (hinit : s.heap_info.initialized ≠ 0)
    (hid : id < num_items)
    (halloc : (tocGet s.heap_toc id).allocated = 0)
    (hdyn : fixed_last < id)
    (hoom : s.heap_info.heap_remaining < ALIGN8 size) :
    smem_alloc2 num_items fixed_last ctx s id size = (none, s) := by
  have h1 : ¬ num_items ≤ id := Nat.not_le.mpr hid
  have h2 : ¬ ALIGN8 size ≤ s.heap_info.heap_remaining := Nat.not_le.mpr hoom
  simp [smem_alloc2, hinit, h1, halloc, hdyn, h2]

/-- C3 witness on a heap with 4 bytes remaining and an 8-byte request. -/
theorem smem_alloc2_oom_leaves_state_witness :
    smem_alloc2 8 2 ctx0 sOOM 3 8 = (none, sOOM) :=
  smem_alloc2_oom_leaves_state 8 2 ctx0 sOOM 3 8 (by decide) (by decide)
    (by decide) (by decide) (by decide)

/-- Reading back an updated TOC slot. -/
theorem tocGet_set_self (l : List smem_heap_entry) (i : Nat)
    (e : smem_heap_entry) (h : i < l.length) : tocGet (l.set i e) i = e :=
  getD_set_self l i e emptyEntry h

/-- C6: `smem_alloc2` conserves `free_offset + heap_remaining` (the only
operation that writes the heap header; `smem_find`, `smem_get_entry` and
`smem_alloc` are pure readers), never decreases `free_offset`, and never
increases `heap_remaining`.  The hypothesis says the heap header is sane:
`free_offset + heap_remaining` (= the total heap size) fits in 32 bits. -/
theorem smem_alloc2_conserves_heap_sum (num_items fixed_last : Nat)
    (ctx : SmemContext) (s : smem_shared) (id size : Nat)
    (hWF : s.heap_info.free_offset + s.heap_info.heap_remaining < W32) :
    (smem_alloc2 num_items fixed_last ctx s id size).2.heap_info.free_offset +
        (smem_alloc2 num_items fixed_last ctx s id size).2.heap_info.heap_remaining =
      s.heap_info.free_offset + s.heap_info.heap_remaining ∧
    s.heap_info.free_offset ≤
      (smem_alloc2 num_items fixed_last ctx s id size).2.heap_info.free_offset ∧
    (smem_alloc2 num_items fixed_last ctx s id size).2.heap_info.heap_remaining ≤
      s.heap_info.heap_remaining := by
  simp only [smem_alloc2]
  split_ifs with h1 h2 h3 h4 h5 h6 <;> (first | (simp_all [W32]; omega) | simp_all [W32])

/-- C6 witness: a concrete successful allocation conserves the sum. -/
theorem smem_alloc2_conserves_heap_sum_witness :
    (smem_alloc2 8 2 ctx0 s0 3 5).2.heap_info.free_offset +
        (smem_alloc2 8 2 ctx0 s0 3 5).2.heap_info.heap_remaining =
      s0.heap_info.free_offset + s0.heap_info.heap_remaining ∧
    s0.heap_info.free_offset ≤
      (smem_alloc2 8 2 ctx0 s0 3 5).2.heap_info.free_offset ∧
    (smem_alloc2 8 2 ctx0 s0 3 5).2.heap_info.heap_remaining ≤
      s0.heap_info.heap_remaining :=
  smem_alloc2_conserves_heap_sum 8 2 ctx0 s0 3 5 (by decide)

/-- C2: if `smem_alloc2 id size` succeeds with address `a` and new state `s1`,
then calling it again with the same arguments returns `a` again and leaves
`free_offset` and `heap_remaining` unchanged.  The hypothesis `hlen` says the
TOC list models the full `SMEM_NUM_ITEMS`-entry array. -/
theorem smem_alloc2_idempotent (num_items fixed_last : Nat) (ctx : SmemContext)
    (s s1 : smem_shared) (id size a : Nat)
    (hlen : num_items ≤ s.heap_toc.length)
    (hs1 : smem_alloc2 num_items fixed_last ctx s id size = (some a, s1)) :
    (smem_alloc2 num_items fixed_last ctx s1 id size).1 = some a ∧
    (smem_alloc2 num_items fixed_last ctx s1 id size).2.heap_info.free_offset =
      s1.heap_info.free_offset ∧
    (smem_alloc2 num_items fixed_last ctx s1 id size).2.heap_info.heap_remaining =
      s1.heap_info.heap_remaining := by
  have key : smem_alloc2 num_items fixed_last ctx s1 id size = (some a, s1) := by
    by_cases hinit : s.heap_info.initialized = 0
    · simp [smem_alloc2, hinit] at hs1
    by_cases hid : num_items ≤ id
    · simp [smem_alloc2, hinit, hid] at hs1
    by_cases halloc : (tocGet s.heap_toc id).allocated = 0
    · by_cases hdyn : fixed_last < id
      · by_cases hrem : ALIGN8 size ≤ s.heap_info.heap_remaining
        · -- fresh allocation
          simp [smem_alloc2, hinit, hid, halloc, hdyn, hrem] at hs1
          obtain ⟨ha, hst⟩ := hs1
          subst ha
          subst hst
          have hget := tocGet_set_self s.heap_toc id
            ⟨1, s.heap_info.free_offset, ALIGN8 size, (tocGet s.heap_toc id).reserved⟩
            (Nat.lt_of_lt_of_le (Nat.not_le.mp hid) hlen)
          simp [smem_alloc2, hinit, hid, hget]
        · simp [smem_alloc2, hinit, hid, halloc, hdyn, hrem] at hs1
      · simp [smem_alloc2, hinit, hid, halloc, hdyn] at hs1
    · by_cases hsz : ALIGN8 size = (tocGet s.heap_toc id).size
      · -- already allocated with matching size
        simp [smem_alloc2, hinit, hid, halloc, hsz] at hs1
        obtain ⟨ha, hst⟩ := hs1
        subst ha
        subst hst
        simp [smem_alloc2, hinit, hid, halloc, hsz]
      · simp [smem_alloc2, hinit, hid, halloc, hsz] at hs1
  exact ⟨by rw [key], by rw [key], by rw [key]⟩

/-- C2 witness: allocate item 3 twice with size 5 in the fresh heap `s0`. -/
theorem smem_alloc2_idempotent_witness :
    (smem_alloc2 8 2 ctx0 s1c 3 5).1 = some 32768 ∧
    (smem_alloc2 8 2 ctx0 s1c 3 5).2.heap_info.free_offset =
      s1c.heap_info.free_offset ∧
    (smem_alloc2 8 2 ctx0 s1c 3 5).2.heap_info.heap_remaining =
      s1c.heap_info.heap_remaining :=
  smem_alloc2_idempotent 8 2 ctx0 s0 s1c 3 5 32768 (by decide) (by decide)

/-- C4: after a successful `smem_alloc2 id size1`, a call with `size2` whose
8-byte alignment differs from that of `size1` fails with NULL and returns the
shared state unchanged — the stored offset and size are not touched. -/
theorem smem_alloc2_size_mismatch_fails (num_items fixed_last : Nat)
    (ctx : SmemContext) (s s1 : smem_shared) (id size1 size2 a : Nat)
    (hlen : num_items ≤ s.heap_toc.length)
    (hs1 : smem_alloc2 num_items fixed_last ctx s id size1 = (some a, s1))
    (hne : ALIGN8 size1 ≠ ALIGN8 size2) :
    smem_alloc2 num_items fixed_last ctx s1 id size2 = (none, s1) := by
  by_cases hinit : s.heap_info.initialized = 0
  · simp [smem_alloc2, hinit] at hs1
  by_cases hid : num_items ≤ id
  · simp [smem_alloc2, hinit, hid] at hs1
  by_cases halloc : (tocGet s.heap_toc id).allocated = 0
  · by_cases hdyn : fixed_last < id
    · by_cases hrem : ALIGN8 size1 ≤ s.heap_info.heap_remaining
      · simp [smem_alloc2, hinit, hid, halloc, hdyn, hrem] at hs1
        obtain ⟨ha, hst⟩ := hs1
        subst ha
        subst hst
        have hget := tocGet_set_self s.heap_toc id
          ⟨1, s.heap_info.free_offset, ALIGN8 size1, (tocGet s.heap_toc id).reserved⟩
          (Nat.lt_of_lt_of_le (Nat.not_le.mp hid) hlen)
        simp [smem_alloc2, hinit, hid, hget, Ne.symm hne]
      · simp [smem_alloc2, hinit, hid, halloc, hdyn, hrem] at hs1
    · simp [smem_alloc2, hinit, hid, halloc, hdyn] at hs1
  · by_cases hsz : ALIGN8 size1 = (tocGet s.heap_toc id).size
    · simp [smem_alloc2, hinit, hid, halloc, hsz] at hs1
      obtain ⟨ha, hst⟩ := hs1
      subst ha
      subst hst
      have : ALIGN8 size2 ≠ (tocGet s.heap_toc id).size := by
        rw [← hsz]
        exact Ne.symm hne
      simp [smem_alloc2, hinit, hid, halloc, this]
    · simp [smem_alloc2, hinit, hid, halloc, hsz] at hs1

/-- C4 witness: allocate item 3 with size 5 (aligned 8), then request size 9
(aligned 16). -/
theorem smem_alloc2_size_mismatch_fails_witness :
    smem_alloc2 8 2 ctx0 s1c 3 9 = (none, s1c) :=
  smem_alloc2_size_mismatch_fails 8 2 ctx0 s0 s1c 3 5 9 32768 (by decide)
    (by decide) (by decide)

/-- The `smem_virt_to_phys` scan returns the sentinel 0 when no region's
virtual span contains the address. -/
theorem virt_to_phys_scan_no_match (addr : Nat) (l : List smem_area)
    (h : ∀ a ∈ l, ¬(a.virt_addr ≤ addr ∧ addr < (a.virt_addr + a.size) % W32)) :
    virt_to_phys_scan addr l = 0 := by
  induction l with
  | nil => rfl
  | cons x xs ih =>
    simp only [virt_to_phys_scan]
    rw [if_neg (h x (List.mem_cons_self x xs))]
    exact ih fun a ha => h a (List.mem_cons_of_mem x ha)

/-- The `smem_virt_to_phys` scan resolves the first region whose virtual span
contains the address. -/
theorem virt_to_phys_scan_first_match (addr : Nat) (l₁ : List smem_area)
    (a : smem_area) (l₂ : List smem_area)
    (hskip : ∀ b ∈ l₁, ¬(b.virt_addr ≤ addr ∧ addr < (b.virt_addr + b.size) % W32))
    (ha : a.virt_addr ≤ addr ∧ addr < (a.virt_addr + a.size) % W32) :
    virt_to_phys_scan addr (l₁ ++ a :: l₂) =
      (addr - a.virt_addr + a.phys_addr) % W32 := by
  induction l₁ with
  | nil =>
    simp only [List.nil_append, virt_to_phys_scan]
    rw [if_pos ha]
  | cons x xs ih =>
    simp only [List.cons_append, virt_to_phys_scan]
    rw [if_neg (hskip x (List.mem_cons_self x xs))]
    exact ih fun b hb => hskip b (List.mem_cons_of_mem x hb)

/-- C9: `smem_virt_to_phys` returns the sentinel physical address 0 when no
region table is registered and when no registered region's virtual span
contains the address; for an address inside a region's virtual span (and not
in any earlier region), it returns that region's physical base plus the
address's offset within the region.  The two `< W32` bounds say the matched
region's virtual and physical spans do not wrap the 32-bit address space. -/
theorem smem_virt_to_phys_sentinel_or_translate (ctx : SmemContext) (addr : Nat) :
    (ctx.areas = none → smem_virt_to_phys ctx addr = 0) ∧
    (∀ l, ctx.areas = some l →
      (∀ a ∈ l, ¬(a.virt_addr ≤ addr ∧ addr < (a.virt_addr + a.size) % W32)) →
      smem_virt_to_phys ctx addr = 0) ∧
    (∀ l₁ a l₂, ctx.areas = some (l₁ ++ a :: l₂) →
      (∀ b ∈ l₁, ¬(b.virt_addr ≤ addr ∧ addr < (b.virt_addr + b.size) % W32)) →
      a.virt_addr ≤ addr → addr < (a.virt_addr + a.size) % W32 →
      a.virt_addr + a.size < W32 → a.phys_addr + a.size < W32 →
      smem_virt_to_phys ctx addr = a.phys_addr + (addr - a.virt_addr)) := by
  refine ⟨?_, ?_, ?_⟩
  · intro h
    simp [smem_virt_to_phys, h]
  · intro l hl hnone
    simp only [smem_virt_to_phys, hl]
    exact virt_to_phys_scan_no_match addr l hnone
  · intro l₁ a l₂ hl hskip h1 h2 hv hp
    simp only [smem_virt_to_phys, hl]
    rw [virt_to_phys_scan_first_match addr l₁ a l₂ hskip ⟨h1, h2⟩]
    have hmod : (a.virt_addr + a.size) % W32 = a.virt_addr + a.size :=
      Nat.mod_eq_of_lt hv
    rw [hmod] at h2
    have : addr - a.virt_addr + a.phys_addr < W32 := by omega
    rw [Nat.mod_eq_of_lt this]
    omega

/-- C9 witness: with the two example regions, virtual `0x9050` resolves to
physical `0x1000 + 0x50`, and an uncovered virtual address gives 0. -/
theorem smem_virt_to_phys_sentinel_or_translate_witness :
    smem_virt_to_phys ctxR12 0x9050 = 0x1000 + (0x9050 - 0x9000) :=
  (smem_virt_to_phys_sentinel_or_translate ctxR12 0x9050).2.2 []
    ⟨0x1000, 0x100, 0x9000⟩ [⟨0x2000, 0x200, 0xA000⟩] rfl (by simp)
    (by decide) (by decide) (by decide) (by decide)

/-- Any address returned by the `smem_phys_to_virt` scan fits in 32 bits,
because the scan overflow-checks the virtual base before adding the offset. -/
theorem phys_to_virt_scan_some_lt (base offset : Nat) (l : List smem_area)
    (hl : ∀ a ∈ l, a.virt_addr < W32) (v : Nat)
    (hv : phys_to_virt_scan base offset l = some v) : v < W32 := by
  induction l with
  | nil => simp [phys_to_virt_scan] at hv
  | cons x xs ih =>
    have hx : x.virt_addr < W32 := hl x (List.mem_cons_self x xs)
    simp only [phys_to_virt_scan] at hv
    by_cases hskip : base < x.phys_addr ∨ (x.phys_addr + x.size) % W32 ≤ base + offset
    · rw [if_pos hskip] at hv
      exact ih (fun a ha => hl a (List.mem_cons_of_mem x ha)) hv
    · rw [if_neg hskip] at hv
      by_cases hov : OVERFLOW_ADD_UNSIGNED x.virt_addr offset
      · simp [hov] at hv
      · rw [if_neg hov] at hv
        have hle : ¬ (W32 - 1 - x.virt_addr < offset) := by
          simpa [OVERFLOW_ADD_UNSIGNED] using hov
        have : x.virt_addr + offset < W32 := by
          simp only [W32] at hx hle ⊢
          omega
        exact Option.some.inj hv ▸ this

/-- If every region before `a` is skipped, `a` contains the queried span, and
adding the offset to `a`'s virtual base would overflow, the scan returns NULL. -/
theorem phys_to_virt_scan_first_match_overflow (base offset : Nat)
    (l₁ : List smem_area) (a : smem_area) (l₂ : List smem_area)
    (hskip : ∀ b ∈ l₁, base < b.phys_addr ∨ (b.phys_addr + b.size) % W32 ≤ base + offset)
    (hmatch : ¬(base < a.phys_addr ∨ (a.phys_addr + a.size) % W32 ≤ base + offset))
    (hov : W32 ≤ a.virt_addr + offset) (hva : a.virt_addr < W32) :
    phys_to_virt_scan base offset (l₁ ++ a :: l₂) = none := by
  induction l₁ with
  | nil =>
    simp only [List.nil_append, phys_to_virt_scan]
    rw [if_neg hmatch, if_pos]
    simp only [OVERFLOW_ADD_UNSIGNED, decide_eq_true_eq, W32] at hov hva ⊢
    omega
  | cons x xs ih =>
    simp only [List.cons_append, phys_to_virt_scan]
    rw [if_pos (hskip x (List.mem_cons_self x xs))]
    exact ih fun b hb => hskip b (List.mem_cons_of_mem x hb)

/-- C5: `smem_phys_to_virt` never returns a wrapped address.  If
`base + offset` overflows the 32-bit physical address type the result is NULL;
every address it does return fits in 32 bits; and if the first region
containing the queried span has a virtual base that would overflow when the
offset is added, the result is NULL.  The hypotheses say the inputs and the
configured virtual bases are 32-bit values, as their C types force. -/
theorem smem_phys_to_virt_overflow_safe (ctx : SmemContext) (base offset : Nat)
    (hbase : base < W32)
    (hvb : ctx.shared_ram_base < W32)
    (hareas : ∀ a ∈ ctx.areas.getD [], a.virt_addr < W32) :
    (W32 ≤ base + offset → smem_phys_to_virt ctx base offset = none) ∧
    (∀ v, smem_phys_to_virt ctx base offset = some v → v < W32) ∧
    (∀ l₁ a l₂, ctx.areas = some (l₁ ++ a :: l₂) →
      (∀ b ∈ l₁, base < b.phys_addr ∨ (b.phys_addr + b.size) % W32 ≤ base + offset) →
      ¬(base < a.phys_addr ∨ (a.phys_addr + a.size) % W32 ≤ base + offset) →
      W32 ≤ a.virt_addr + offset →
      smem_phys_to_virt ctx base offset = none) := by
  refine ⟨?_, ?_, ?_⟩
  · intro hov
    have : OVERFLOW_ADD_UNSIGNED base offset = true := by
      simp only [OVERFLOW_ADD_UNSIGNED, decide_eq_true_eq, W32] at hbase hov ⊢
      omega
    simp [smem_phys_to_virt, this]
  · intro v hv
    by_cases hov : OVERFLOW_ADD_UNSIGNED base offset
    · simp [smem_phys_to_virt, hov] at hv
    · cases hA : ctx.areas with
      | none =>
        simp only [smem_phys_to_virt, hov, Bool.false_eq_true, if_false, hA] at hv
        by_cases hin : ctx.shared_ram_phys ≤ base ∧
            base + offset < (ctx.shared_ram_phys + ctx.shared_ram_size) % W32
        · rw [if_pos hin] at hv
          by_cases hov2 : OVERFLOW_ADD_UNSIGNED ctx.shared_ram_base offset
          · simp [hov2] at hv
          · rw [if_neg hov2] at hv
            have hle : ¬ (W32 - 1 - ctx.shared_ram_base < offset) := by
              simpa [OVERFLOW_ADD_UNSIGNED] using hov2
            have : ctx.shared_ram_base + offset < W32 := by
              simp only [W32] at hvb hle ⊢
              omega
            exact Option.some.inj hv ▸ this
        · rw [if_neg hin] at hv
          exact absurd hv (by simp)
      | some l =>
        simp only [smem_phys_to_virt, hov, Bool.false_eq_true, if_false, hA] at hv
        refine phys_to_virt_scan_some_lt base offset l ?_ v hv
        intro a ha
        exact hareas a (by simpa [hA] using ha)
  · intro l₁ a l₂ hA hskip hmatch hov
    have hva : a.virt_addr < W32 :=
      hareas a (by simp [hA, List.mem_append])
    have hno : OVERFLOW_ADD_UNSIGNED base offset = false := by
      have h1 : base + offset < (a.phys_addr + a.size) % W32 := by
        rcases Nat.lt_or_ge (base + offset) ((a.phys_addr + a.size) % W32) with h | h
        · exact h
        · exact absurd (Or.inr h) hmatch
      have h2 : (a.phys_addr + a.size) % W32 < W32 :=
        Nat.mod_lt _ (by simp [W32])
      simp only [OVERFLOW_ADD_UNSIGNED, decide_eq_false_iff_not, W32] at hbase ⊢
      simp only [W32] at h1 h2
      omega
    simp only [smem_phys_to_virt, hno, Bool.false_eq_true, if_false, hA]
    exact phys_to_virt_scan_first_match_overflow base offset l₁ a l₂ hskip hmatch hov hva

/-- C5 witness: `base = 2^32 - 1`, `offset = 1` overflows and yields NULL. -/
theorem smem_phys_to_virt_overflow_safe_witness :
    smem_phys_to_virt ctxR12 4294967295 1 = none :=
  (smem_phys_to_virt_overflow_safe ctxR12 4294967295 1 (by decide) (by decide)
    (by decide)).1 (by decide)
